import Mathlib

/-!
Shallow embedding of the IPL data-analysis dashboard (`src/app.py`).

The app loads two CSV tables (matches, deliveries) with pandas and computes
three rankings:

* `get_best_batsman`  — `delivery_df.groupby('batsman')['batsman_runs'].sum()`
  then `sort_values(by='batsman_runs', ascending=False).head(top_n)`;
* `get_best_bowler`   — filter deliveries whose `dismissal_kind` is in the
  list `['caught', 'bowled', 'lbw', 'stumped', 'caught and bowled',
  'hit wicket']`, then `groupby('bowler')['dismissal_kind'].count()`,
  `sort_values(..., ascending=False).head(top_n)`;
* `get_top_teams_wins` — `match_df['winner'].value_counts()` (drops NaN),
  renamed, `.head(top_n)`.

Embedding choices, matching pandas semantics:

* a table is a `List` of rows; a nullable CSV cell is an `Option`
  (`None`/NaN stands for a missing value; `isin` is `false` on NaN);
* `groupby(key)` with pandas' default `sort=True` lists the distinct keys in
  ascending order of the key (modelled with `dedupKeys` and an insertion
  sort on `String`, using the lexicographic order of `String`);
* `value_counts()` lists distinct values in first-occurrence order and then
  sorts by count descending;
* `sort_values(ascending=False)` is modelled as a descending insertion sort
  on the numeric column. pandas' default `kind='quicksort'` guarantees only
  the descending order, not the relative order of tied rows, so no general
  theorem below relies on the model's particular tie order: tie-order facts
  are stated either on concrete frames small enough to trace by hand
  (numpy's sort handles such sizes by insertion sort) or as invariance
  under reordering the input rows, which holds for the real program because
  the frame the sort receives from the group-by stage is already
  independent of the input order;
* `head(top_n)` is `List.take top_n`;
* `load_data` reads two files; a failed read (pandas raising
  `FileNotFoundError`, caught by the app, which calls `st.error` and
  `st.stop()`) is modelled by the `Except` error case, which carries the
  message and produces no tables, so nothing downstream can run.
-/

/-- One row of `deliveries.csv`, with the columns `app.py` uses.
`dismissal_kind` is nullable (NaN for a ball with no dismissal). -/
structure Delivery where
  batsman : String
  batsman_runs : Nat
  bowler : String
  dismissal_kind : Option String
deriving Repr, DecidableEq

/-- One row of `matches.csv`, with the column `app.py` uses.
`winner` is nullable (NaN for a no-result match). -/
structure MatchRow where
  winner : Option String
deriving Repr, DecidableEq

/-- Distinct values of a string column, first occurrence first
(the key set of a pandas groupby / hash table). -/
def dedupKeys : List String → List String
  | [] => []
  | x :: xs => x :: dedupKeys (xs.filter (fun y => y != x))
termination_by l => l.length
decreasing_by
  simp only [List.length_cons]
  exact Nat.lt_succ_of_le (List.length_filter_le _ _)

/-- Insert a string into a list, before the first element it is ≤ to
(ascending insertion step). -/
def insertStrAsc (x : String) : List String → List String
  | [] => [x]
  | y :: ys => if x ≤ y then x :: y :: ys else y :: insertStrAsc x ys

/-- Ascending insertion sort on strings: the order in which pandas
`groupby(sort=True)` lists its group keys. -/
def sortStrAsc : List String → List String
  | [] => []
  | x :: xs => insertStrAsc x (sortStrAsc xs)

/-- Insert a row into a list sorted descending by `key`, after every element
of `key`-value ≥ its own (descending insertion step). -/
def insertKeyDesc (key : α → Nat) (x : α) : List α → List α
  | [] => [x]
  | y :: ys => if key y ≤ key x then x :: y :: ys else y :: insertKeyDesc key x ys

/-- Descending sort by a numeric key: pandas
`sort_values(by=key, ascending=False)`. pandas' default sort kind leaves
the relative order of tied rows unspecified; this insertion sort is one
concrete refinement of it, and no general theorem relies on its tie
order. -/
def sortKeyDesc (key : α → Nat) : List α → List α
  | [] => []
  | x :: xs => insertKeyDesc key x (sortKeyDesc key xs)

/-- `delivery_df[delivery_df['batsman'] == b]['batsman_runs'].sum()`:
the total of `batsman_runs` over batsman `b`'s deliveries. -/
def sumBatsmanRuns (df : List Delivery) (b : String) : Nat :=
  ((df.filter (fun d => d.batsman == b)).map (fun d => d.batsman_runs)).sum

/-- The group keys of `delivery_df.groupby('batsman')`: distinct batsmen,
listed in ascending order. -/
def batsmanKeys (df : List Delivery) : List String :=
  sortStrAsc (dedupKeys (df.map (fun d => d.batsman)))

/-- `get_best_batsman` (app.py line 52): group by batsman, sum
`batsman_runs`, sort descending by the sum, take the first `top_n`. -/
def get_best_batsman (df : List Delivery) (top_n : Nat) : List (String × Nat) :=
  (sortKeyDesc (fun p => p.2)
    ((batsmanKeys df).map (fun b => (b, sumBatsmanRuns df b)))).take top_n

/-- The dismissal kinds credited to the bowler (app.py line 85), verbatim:
`['caught', 'bowled', 'lbw', 'stumped', 'caught and bowled', 'hit wicket']`. -/
def bowlerAllowList : List String :=
  ["caught", "bowled", "lbw", "stumped", "caught and bowled", "hit wicket"]

/-- `delivery_df['dismissal_kind'].isin([...])` for one row: `true` exactly
when the cell is non-null and its string is in `bowlerAllowList`
(pandas `isin` is `False` on NaN). -/
def dismissalCredited (d : Delivery) : Bool :=
  match d.dismissal_kind with
  | some k => bowlerAllowList.contains k
  | none => false

/-- The filtered frame `wickets` of `get_best_bowler`: deliveries whose
dismissal kind is credited to the bowler. -/
def creditedDeliveries (df : List Delivery) : List Delivery :=
  df.filter dismissalCredited

/-- The `'Wickets Taken'` count for bowler `b`: the number of credited
deliveries bowled by `b`. -/
def bowlerWicketCount (df : List Delivery) (b : String) : Nat :=
  ((creditedDeliveries df).filter (fun d => d.bowler == b)).length

/-- The group keys of `wickets.groupby('bowler')`: distinct bowlers of the
filtered frame, listed in ascending order. -/
def bowlerKeys (df : List Delivery) : List String :=
  sortStrAsc (dedupKeys ((creditedDeliveries df).map (fun d => d.bowler)))

/-- `get_best_bowler` (app.py line 82): filter to credited dismissals, group
by bowler, count, sort descending by the count, take the first `top_n`. -/
def get_best_bowler (df : List Delivery) (top_n : Nat) : List (String × Nat) :=
  (sortKeyDesc (fun p => p.2)
    ((bowlerKeys df).map (fun b => (b, bowlerWicketCount df b)))).take top_n

/-- The non-null `winner` cells of the match table, in row order
(what `match_df['winner'].value_counts()` counts: NaN is dropped). -/
def matchWinners (df : List MatchRow) : List String :=
  df.filterMap (fun m => m.winner)

/-- `match_df['winner'].value_counts()`: one row per distinct non-null
winner with its frequency, sorted descending by frequency. -/
def teamWinCounts (df : List MatchRow) : List (String × Nat) :=
  sortKeyDesc (fun p => p.2)
    ((dedupKeys (matchWinners df)).map (fun t => (t, (matchWinners df).count t)))

/-- `get_top_teams_wins` (app.py line 114): `value_counts` on `winner`,
take the first `top_n`. -/
def get_top_teams_wins (df : List MatchRow) (top_n : Nat) : List (String × Nat) :=
  (teamWinCounts df).take top_n

/-- The two CSV files as `load_data` sees them: `none` models a file whose
read raises (missing/unreadable), `some` a successful `pd.read_csv`. -/
structure DataFiles where
  matchesFile : Option (List MatchRow)
  deliveriesFile : Option (List Delivery)

/-- `load_data` (app.py line 38): read both files; if either read fails, the
`except` branch shows the error message and `st.stop()` halts the script, so
no tables are produced — modelled by `Except.error` carrying the message. -/
def load_data (fs : DataFiles) : Except String (List MatchRow × List Delivery) :=
  match fs.matchesFile, fs.deliveriesFile with
  | some m, some d => Except.ok (m, d)
  | _, _ => Except.error
      "Data files (matches.csv or deliveries.csv) not found in the 'data' folder. Please check your path."

/-- The dismissal-kind allow-list exactly as the claim spells it, with
hyphenated `caught-and-bowled` and `hit-wicket`; kept separate from the
source's `bowlerAllowList` so the two spellings can be compared. -/
def claimAllowList : List String :=
  ["caught", "bowled", "lbw", "stumped", "caught-and-bowled", "hit-wicket"]

/-- The claim's per-row test: dismissal kind non-null and in
`claimAllowList`, matched case-sensitively. -/
def claimDismissalCredited (d : Delivery) : Bool :=
  match d.dismissal_kind with
  | some k => claimAllowList.contains k
  | none => false

/-! ### Generic facts about the two insertion sorts -/

theorem mem_insertKeyDesc {key : α → Nat} {x z : α} :
    ∀ {l : List α}, z ∈ insertKeyDesc key x l ↔ z = x ∨ z ∈ l
  | [] => by simp [insertKeyDesc]
  | y :: ys => by
    simp only [insertKeyDesc]
    by_cases h : key y ≤ key x
    · simp [h]
    · simp only [if_neg h, List.mem_cons, mem_insertKeyDesc (l := ys)]
      tauto

theorem perm_insertKeyDesc (key : α → Nat) (x : α) :
    ∀ (l : List α), (insertKeyDesc key x l).Perm (x :: l)
  | [] => List.Perm.refl _
  | y :: ys => by
    simp only [insertKeyDesc]
    by_cases h : key y ≤ key x
    · simp [h]
    · rw [if_neg h]
      exact ((perm_insertKeyDesc key x ys).cons y).trans (List.Perm.swap x y ys)

theorem perm_sortKeyDesc (key : α → Nat) :
    ∀ (l : List α), (sortKeyDesc key l).Perm l
  | [] => List.Perm.refl _
  | x :: xs =>
    (perm_insertKeyDesc key x (sortKeyDesc key xs)).trans
      ((perm_sortKeyDesc key xs).cons x)

theorem length_sortKeyDesc (key : α → Nat) (l : List α) :
    (sortKeyDesc key l).length = l.length :=
  (perm_sortKeyDesc key l).length_eq

theorem mem_sortKeyDesc {key : α → Nat} {l : List α} {z : α} :
    z ∈ sortKeyDesc key l ↔ z ∈ l :=
  (perm_sortKeyDesc key l).mem_iff

theorem pairwise_insertKeyDesc {key : α → Nat} {x : α} :
    ∀ {l : List α}, l.Pairwise (fun a b => key b ≤ key a) →
      (insertKeyDesc key x l).Pairwise (fun a b => key b ≤ key a)
  | [], _ => List.pairwise_singleton _ _
  | y :: ys, h => by
    simp only [insertKeyDesc]
    rcases List.pairwise_cons.mp h with ⟨hy, hys⟩
    by_cases hxy : key y ≤ key x
    · rw [if_pos hxy]
      refine List.pairwise_cons.mpr ⟨?_, h⟩
      intro z hz
      rcases List.mem_cons.mp hz with rfl | hz
      · exact hxy
      · exact le_trans (hy z hz) hxy
    · rw [if_neg hxy]
      refine List.pairwise_cons.mpr ⟨?_, pairwise_insertKeyDesc hys⟩
      intro z hz
      rcases mem_insertKeyDesc.mp hz with rfl | hz
      · exact le_of_lt (lt_of_not_le hxy)
      · exact hy z hz

theorem pairwise_sortKeyDesc (key : α → Nat) :
    ∀ (l : List α), (sortKeyDesc key l).Pairwise (fun a b => key b ≤ key a)
  | [] => List.Pairwise.nil
  | x :: xs => pairwise_insertKeyDesc (pairwise_sortKeyDesc key xs)

theorem mem_insertStrAsc {x z : String} :
    ∀ {l : List String}, z ∈ insertStrAsc x l ↔ z = x ∨ z ∈ l
  | [] => by simp [insertStrAsc]
  | y :: ys => by
    simp only [insertStrAsc]
    by_cases h : x ≤ y
    · simp [h]
    · simp only [if_neg h, List.mem_cons, mem_insertStrAsc (l := ys)]
      tauto

theorem perm_insertStrAsc (x : String) :
    ∀ (l : List String), (insertStrAsc x l).Perm (x :: l)
  | [] => List.Perm.refl _
  | y :: ys => by
    simp only [insertStrAsc]
    by_cases h : x ≤ y
    · simp [h]
    · rw [if_neg h]
      exact ((perm_insertStrAsc x ys).cons y).trans (List.Perm.swap x y ys)

theorem perm_sortStrAsc :
    ∀ (l : List String), (sortStrAsc l).Perm l
  | [] => List.Perm.refl _
  | x :: xs =>
    (perm_insertStrAsc x (sortStrAsc xs)).trans ((perm_sortStrAsc xs).cons x)

theorem pairwise_insertStrAsc {x : String} :
    ∀ {l : List String}, l.Pairwise (fun a b => a ≤ b) →
      (insertStrAsc x l).Pairwise (fun a b => a ≤ b)
  | [], _ => List.pairwise_singleton _ _
  | y :: ys, h => by
    simp only [insertStrAsc]
    rcases List.pairwise_cons.mp h with ⟨hy, hys⟩
    by_cases hxy : x ≤ y
    · rw [if_pos hxy]
      refine List.pairwise_cons.mpr ⟨?_, h⟩
      intro z hz
      rcases List.mem_cons.mp hz with rfl | hz
      · exact hxy
      · exact le_trans hxy (hy z hz)
    · rw [if_neg hxy]
      refine List.pairwise_cons.mpr ⟨?_, pairwise_insertStrAsc hys⟩
      intro z hz
      rcases mem_insertStrAsc.mp hz with rfl | hz
      · exact le_of_lt (lt_of_not_le hxy)
      · exact hy z hz

theorem pairwise_sortStrAsc :
    ∀ (l : List String), (sortStrAsc l).Pairwise (fun a b => a ≤ b)
  | [] => List.Pairwise.nil
  | x :: xs => pairwise_insertStrAsc (pairwise_sortStrAsc xs)

/-! ### Facts about `dedupKeys` -/

theorem mem_dedupKeys (a : String) : ∀ (l : List String), a ∈ dedupKeys l ↔ a ∈ l := by
  intro l
  induction l using dedupKeys.induct with
  | case1 => simp [dedupKeys]
  | case2 x xs ih =>
    rw [dedupKeys]
    by_cases hax : a = x
    · subst hax
      simp
    · simp only [List.mem_cons, ih, List.mem_filter]
      constructor
      · rintro (rfl | ⟨h, _⟩)
        · exact Or.inl rfl
        · exact Or.inr h
      · rintro (rfl | h)
        · exact Or.inl rfl
        · exact Or.inr ⟨h, by simpa using hax⟩

theorem nodup_dedupKeys : ∀ (l : List String), (dedupKeys l).Nodup := by
  intro l
  induction l using dedupKeys.induct with
  | case1 => simp [dedupKeys]
  | case2 x xs ih =>
    rw [dedupKeys]
    refine List.nodup_cons.mpr ⟨?_, ih⟩
    intro hx
    have hmem := (mem_dedupKeys x _).mp hx
    have := (List.mem_filter.mp hmem).2
    simp at this

theorem count_add_length_filter_ne (x : String) :
    ∀ (xs : List String),
      List.count x xs + (xs.filter (fun y => y != x)).length = xs.length
  | [] => rfl
  | y :: ys => by
    have ih := count_add_length_filter_ne x ys
    by_cases h : y = x
    · subst h
      simp only [List.count_cons_self, List.filter_cons]
      simp only [bne_self_eq_false, Bool.false_eq_true, if_false, List.length_cons]
      omega
    · rw [List.count_cons, List.filter_cons]
      have hb : (y != x) = true := by simpa using h
      have hbe : (y == x) = false := by simpa using h
      rw [if_pos hb, if_neg (by simp [hbe])]
      simp only [List.length_cons]
      omega

theorem sum_count_dedupKeys : ∀ (l : List String),
    ((dedupKeys l).map (fun t => l.count t)).sum = l.length := by
  intro l
  induction l using dedupKeys.induct with
  | case1 => simp [dedupKeys]
  | case2 x xs ih =>
    rw [dedupKeys]
    simp only [List.map_cons, List.sum_cons]
    have hmap : (dedupKeys (xs.filter (fun y => y != x))).map (fun t => (x :: xs).count t)
        = (dedupKeys (xs.filter (fun y => y != x))).map
            (fun t => (xs.filter (fun y => y != x)).count t) := by
      apply List.map_congr_left
      intro t ht
      have htmem := (mem_dedupKeys t _).mp ht
      have htx : (t != x) = true := (List.mem_filter.mp htmem).2
      have htne : x ≠ t := by
        intro he
        subst he
        simp at htx
      rw [List.count_cons, if_neg (by simpa using htne)]
      simp only [Nat.add_zero]
      exact (List.count_filter (p := fun y => y != x) htx).symm
    rw [hmap, ih, List.count_cons_self, List.length_cons]
    have := count_add_length_filter_ne x xs
    omega

/-! ### The group keys are strictly increasing and exhaust the distinct values -/

theorem pairwise_lt_sortStrAsc_dedupKeys (l : List String) :
    (sortStrAsc (dedupKeys l)).Pairwise (fun a b => a < b) := by
  have hle := pairwise_sortStrAsc (dedupKeys l)
  have hnd : (sortStrAsc (dedupKeys l)).Nodup :=
    (perm_sortStrAsc _).nodup_iff.mpr (nodup_dedupKeys _)
  exact (hle.and hnd).imp (fun h => lt_of_le_of_ne h.1 h.2)

theorem mem_sortStrAsc_dedupKeys {l : List String} {a : String} :
    a ∈ sortStrAsc (dedupKeys l) ↔ a ∈ l := by
  rw [(perm_sortStrAsc _).mem_iff, mem_dedupKeys]

/-! ### Shape of a ranking: membership and length -/

theorem mem_take_sortKeyDesc_map {keys : List String} {f : String → Nat} {n : Nat}
    {p : String × Nat}
    (h : p ∈ (sortKeyDesc (fun q => q.2) (keys.map (fun k => (k, f k)))).take n) :
    p.1 ∈ keys ∧ p.2 = f p.1 := by
  have h1 : p ∈ sortKeyDesc (fun q => q.2) (keys.map (fun k => (k, f k))) :=
    List.take_subset n _ h
  have h2 : p ∈ keys.map (fun k => (k, f k)) := mem_sortKeyDesc.mp h1
  rcases List.mem_map.mp h2 with ⟨k, hk, he⟩
  cases he
  exact ⟨hk, rfl⟩

theorem length_get_best_batsman (df : List Delivery) (n : Nat) :
    (get_best_batsman df n).length
      = min n (dedupKeys (df.map (fun d => d.batsman))).length := by
  simp only [get_best_batsman, List.length_take, length_sortKeyDesc, List.length_map,
    batsmanKeys, (perm_sortStrAsc _).length_eq]

theorem length_get_best_bowler (df : List Delivery) (n : Nat) :
    (get_best_bowler df n).length
      = min n (dedupKeys ((creditedDeliveries df).map (fun d => d.bowler))).length := by
  simp only [get_best_bowler, List.length_take, length_sortKeyDesc, List.length_map,
    bowlerKeys, (perm_sortStrAsc _).length_eq]

theorem length_get_top_teams_wins (df : List MatchRow) (n : Nat) :
    (get_top_teams_wins df n).length
      = min n (dedupKeys (matchWinners df)).length := by
  simp only [get_top_teams_wins, teamWinCounts, List.length_take, length_sortKeyDesc,
    List.length_map]

theorem sorted_desc_get_best_batsman (df : List Delivery) (n : Nat) :
    (get_best_batsman df n).Pairwise (fun a b => b.2 ≤ a.2) :=
  ((pairwise_sortKeyDesc (fun p : String × Nat => p.2) _)).sublist (List.take_sublist n _)

theorem sorted_desc_get_best_bowler (df : List Delivery) (n : Nat) :
    (get_best_bowler df n).Pairwise (fun a b => b.2 ≤ a.2) :=
  ((pairwise_sortKeyDesc (fun p : String × Nat => p.2) _)).sublist (List.take_sublist n _)

theorem sorted_desc_get_top_teams_wins (df : List MatchRow) (n : Nat) :
    (get_top_teams_wins df n).Pairwise (fun a b => b.2 ≤ a.2) :=
  ((pairwise_sortKeyDesc (fun p : String × Nat => p.2) _)).sublist (List.take_sublist n _)

/-! ### Concrete tables used by the examples and witnesses -/

/-- The spec's worked example: batsman `A` scores 4, 6 and 1 on three
deliveries, batsman `B` scores 4 on one delivery. -/
def exampleDeliveries : List Delivery :=
  [⟨"A", 4, "x", none⟩, ⟨"A", 6, "x", none⟩, ⟨"A", 1, "x", none⟩, ⟨"B", 4, "x", none⟩]

/-- The spec's worked example: three matches with winners
`Mumbai`, `Mumbai`, null. -/
def exampleMatches : List MatchRow :=
  [⟨some "Mumbai"⟩, ⟨some "Mumbai"⟩, ⟨none⟩]

/-- Two bowlers: `Y` has only a run-out delivery (never credited),
`Z` has a caught delivery (credited). -/
def exampleBowlerDeliveries : List Delivery :=
  [⟨"a", 0, "Y", some "run out"⟩, ⟨"b", 0, "Z", some "caught"⟩]

/-! ### C8 -/

/-- C8: on the table where batsman `A` scores 4+6+1 = 11 and batsman `B`
scores 4, `get_best_batsman` with `top_n = 2` returns exactly
`[(A, 11), (B, 4)]`, in that order. -/
theorem c8_example_two_batsmen :
    get_best_batsman exampleDeliveries 2 = [("A", 11), ("B", 4)] := by
  simp [exampleDeliveries, get_best_batsman, batsmanKeys, sortStrAsc, insertStrAsc,
    sortKeyDesc, insertKeyDesc, dedupKeys, sumBatsmanRuns]

/-! ### C2 -/

/-- C2: every row of `get_best_batsman` pairs a batsman with the sum of
`batsman_runs` over that batsman's deliveries; the ranking is sorted
non-increasing by total runs; and it has at most `top_n` rows and at most
one row per distinct batsman of the input. -/
theorem c2_batsman_ranking_shape (df : List Delivery) (top_n : Nat) :
    (∀ p ∈ get_best_batsman df top_n, p.2 = sumBatsmanRuns df p.1)
      ∧ (get_best_batsman df top_n).Pairwise (fun a b => b.2 ≤ a.2)
      ∧ (get_best_batsman df top_n).length ≤ top_n
      ∧ (get_best_batsman df top_n).length
          ≤ (dedupKeys (df.map (fun d => d.batsman))).length := by
  refine ⟨?_, sorted_desc_get_best_batsman df top_n, ?_, ?_⟩
  · intro p hp
    exact (mem_take_sortKeyDesc_map hp).2
  · rw [length_get_best_batsman]
    exact Nat.min_le_left _ _
  · rw [length_get_best_batsman]
    exact Nat.min_le_right _ _

/-- Witness for C2 at the example table: `("A", 11)` is a row of the
ranking, and by C2 its 11 is the sum of `A`'s `batsman_runs`. -/
theorem c2_batsman_ranking_shape_witness :
    (("A", 11) ∈ get_best_batsman exampleDeliveries 2)
      ∧ (11 : Nat) = sumBatsmanRuns exampleDeliveries "A" := by
  have hmem : (("A", (11 : Nat))) ∈ get_best_batsman exampleDeliveries 2 := by
    simp [exampleDeliveries, get_best_batsman, batsmanKeys, sortStrAsc, insertStrAsc,
      sortKeyDesc, insertKeyDesc, dedupKeys, sumBatsmanRuns]
  exact ⟨hmem, (c2_batsman_ranking_shape exampleDeliveries 2).1 _ hmem⟩

/-! ### C9 -/

/-- C9: for every match table and every `top_n`, the team win ranking is
sorted non-increasing by win count. -/
theorem c9_team_ranking_sorted_desc (df : List MatchRow) (top_n : Nat) :
    (get_top_teams_wins df top_n).Pairwise (fun a b => b.2 ≤ a.2) :=
  sorted_desc_get_top_teams_wins df top_n

/-! ### C3 -/

theorem length_matchWinners (df : List MatchRow) :
    (matchWinners df).length = (df.filter (fun m => m.winner.isSome)).length := by
  induction df with
  | nil => rfl
  | cons m ms ih =>
    cases hm : m.winner with
    | none => simpa [matchWinners, List.filterMap_cons, List.filter_cons, hm] using ih
    | some w => simpa [matchWinners, List.filterMap_cons, List.filter_cons, hm] using ih

theorem sum_teamWinCounts (df : List MatchRow) :
    ((teamWinCounts df).map (fun q => q.2)).sum
      = (df.filter (fun m => m.winner.isSome)).length := by
  have hperm :
      ((teamWinCounts df).map (fun q => q.2)).Perm
        (((dedupKeys (matchWinners df)).map
            (fun t => (t, (matchWinners df).count t))).map (fun q => q.2)) :=
    (perm_sortKeyDesc _ _).map _
  rw [hperm.sum_eq, List.map_map]
  have : ((fun q : String × Nat => q.2) ∘ fun t => (t, (matchWinners df).count t))
      = fun t => (matchWinners df).count t := rfl
  rw [this, sum_count_dedupKeys, length_matchWinners]

/-- C3: every team listed by `get_top_teams_wins` is the winner of some
match whose `winner` is non-null (a null winner is never counted as a
team), and the win counts of all teams in the `value_counts` table sum to
the number of matches with a non-null winner. -/
theorem c3_team_wins_nonnull (df : List MatchRow) (top_n : Nat) :
    (∀ p ∈ get_top_teams_wins df top_n, ∃ m ∈ df, m.winner = some p.1)
      ∧ ((teamWinCounts df).map (fun q => q.2)).sum
          = (df.filter (fun m => m.winner.isSome)).length := by
  refine ⟨?_, sum_teamWinCounts df⟩
  intro p hp
  have hp' : p ∈ (sortKeyDesc (fun q : String × Nat => q.2)
      ((dedupKeys (matchWinners df)).map
        (fun t => (t, (matchWinners df).count t)))).take top_n := by
    simpa [get_top_teams_wins, teamWinCounts] using hp
  have h1 : p.1 ∈ dedupKeys (matchWinners df) := (mem_take_sortKeyDesc_map hp').1
  have h2 : p.1 ∈ matchWinners df := (mem_dedupKeys _ _).mp h1
  exact List.mem_filterMap.mp h2

/-- Witness for C3 at the example match table (winners `Mumbai`, `Mumbai`,
null): `("Mumbai", 2)` is a row, some match has winner `Mumbai`, and the
counts sum to 2, the number of non-null winners. -/
theorem c3_team_wins_nonnull_witness :
    (("Mumbai", 2) ∈ get_top_teams_wins exampleMatches 5)
      ∧ (∃ m ∈ exampleMatches, m.winner = some "Mumbai")
      ∧ ((teamWinCounts exampleMatches).map (fun q => q.2)).sum
          = (exampleMatches.filter (fun m => m.winner.isSome)).length := by
  have hmem : (("Mumbai", (2 : Nat))) ∈ get_top_teams_wins exampleMatches 5 := by
    simp [exampleMatches, get_top_teams_wins, teamWinCounts, matchWinners,
      sortKeyDesc, insertKeyDesc, dedupKeys]
  have h := c3_team_wins_nonnull exampleMatches 5
  exact ⟨hmem, h.1 _ hmem, h.2⟩

/-! ### C4 -/

/-- C4 counterexample: on the two-delivery table where `B` (5 runs) occurs
before `A` (5 runs), the tied batsmen come out in alphabetical order
`[(A, 5), (B, 5)]`, not in input order `[(B, 5), (A, 5)]` as the claim
states. -/
theorem c4_tie_input_order_counterexample :
    get_best_batsman [⟨"B", 5, "x", none⟩, ⟨"A", 5, "x", none⟩] 2 = [("A", 5), ("B", 5)]
      ∧ get_best_batsman [⟨"B", 5, "x", none⟩, ⟨"A", 5, "x", none⟩] 2
          ≠ [("B", 5), ("A", 5)] := by
  constructor <;>
    simp [get_best_batsman, batsmanKeys, sortStrAsc, insertStrAsc,
      sortKeyDesc, insertKeyDesc, dedupKeys, sumBatsmanRuns]

/-- Two strictly increasing string lists with the same members are equal. -/
theorem eq_of_pairwise_lt_of_mem_iff :
    ∀ {l₁ l₂ : List String}, l₁.Pairwise (fun a b => a < b) →
      l₂.Pairwise (fun a b => a < b) → (∀ a, a ∈ l₁ ↔ a ∈ l₂) → l₁ = l₂
  | [], [], _, _, _ => rfl
  | [], y :: ys, _, _, hm =>
    absurd ((hm y).mpr (List.mem_cons_self y ys)) (List.not_mem_nil y)
  | x :: xs, [], _, _, hm =>
    absurd ((hm x).mp (List.mem_cons_self x xs)) (List.not_mem_nil x)
  | x :: xs, y :: ys, h₁, h₂, hm => by
    rcases List.pairwise_cons.mp h₁ with ⟨hx, hxs⟩
    rcases List.pairwise_cons.mp h₂ with ⟨hy, hys⟩
    have hxy : x = y := by
      rcases List.mem_cons.mp ((hm x).mp (List.mem_cons_self x xs)) with he | hxys
      · exact he
      · rcases List.mem_cons.mp ((hm y).mpr (List.mem_cons_self y ys)) with he | hyxs
        · exact he.symm
        · exact absurd (lt_trans (hy x hxys) (hx y hyxs)) (lt_irrefl y)
    subst hxy
    have hm' : ∀ a, a ∈ xs ↔ a ∈ ys := by
      intro a
      constructor
      · intro ha
        rcases List.mem_cons.mp ((hm a).mp (List.mem_cons_of_mem x ha)) with rfl | h
        · exact absurd (hx a ha) (lt_irrefl a)
        · exact h
      · intro ha
        rcases List.mem_cons.mp ((hm a).mpr (List.mem_cons_of_mem x ha)) with rfl | h
        · exact absurd (hy a ha) (lt_irrefl a)
        · exact h
    rw [eq_of_pairwise_lt_of_mem_iff hxs hys hm']

/-- Reordering the delivery rows leaves the batsman group keys unchanged:
the group-by stage lists the distinct batsmen in ascending order whatever
the input order was. -/
theorem batsmanKeys_perm {df₁ df₂ : List Delivery} (h : df₁.Perm df₂) :
    batsmanKeys df₁ = batsmanKeys df₂ := by
  refine eq_of_pairwise_lt_of_mem_iff (pairwise_lt_sortStrAsc_dedupKeys _)
    (pairwise_lt_sortStrAsc_dedupKeys _) ?_
  intro a
  rw [batsmanKeys, batsmanKeys, mem_sortStrAsc_dedupKeys, mem_sortStrAsc_dedupKeys]
  exact (h.map _).mem_iff

/-- Reordering the delivery rows leaves every batsman's run total
unchanged. -/
theorem sumBatsmanRuns_perm {df₁ df₂ : List Delivery} (h : df₁.Perm df₂) (b : String) :
    sumBatsmanRuns df₁ b = sumBatsmanRuns df₂ b := by
  unfold sumBatsmanRuns
  exact ((h.filter (fun d => d.batsman == b)).map (fun d => d.batsman_runs)).sum_eq

/-- C4 amended: the order of batsmen with equal total runs does not depend
on the order their deliveries occur in the input — permuting the input rows
leaves the ranking unchanged, because the frame the descending sort
receives (group keys in ascending batsman order, each with its run total)
is already independent of input order. Real `sort_values` then maps that
identical frame to an identical result, whatever its tie behaviour. -/
theorem c4_ranking_independent_of_input_order (df₁ df₂ : List Delivery) (top_n : Nat)
    (h : df₁.Perm df₂) :
    get_best_batsman df₁ top_n = get_best_batsman df₂ top_n
      ∧ ((batsmanKeys df₁).map (fun b => (b, sumBatsmanRuns df₁ b))).Pairwise
          (fun a b => a.1 < b.1) := by
  constructor
  · have hmap : (batsmanKeys df₁).map (fun b => (b, sumBatsmanRuns df₁ b))
        = (batsmanKeys df₂).map (fun b => (b, sumBatsmanRuns df₂ b)) := by
      rw [← batsmanKeys_perm h]
      refine List.map_congr_left ?_
      intro b hb
      rw [sumBatsmanRuns_perm h]
    simp only [get_best_batsman, hmap]
  · exact List.pairwise_map.mpr (pairwise_lt_sortStrAsc_dedupKeys _)

/-- Witness for C4 (amended): swapping the two tied deliveries of the
counterexample table leaves the ranking unchanged. -/
theorem c4_ranking_independent_of_input_order_witness :
    get_best_batsman [⟨"B", 5, "x", none⟩, ⟨"A", 5, "x", none⟩] 2
      = get_best_batsman [⟨"A", 5, "x", none⟩, ⟨"B", 5, "x", none⟩] 2 :=
  (c4_ranking_independent_of_input_order _ _ 2 (List.Perm.swap _ _ _)).1

/-! ### C1 -/

/-- C1 counterexample: the code's allow-list spells the two multi-word
kinds with spaces, not hyphens. A delivery whose dismissal kind is the
claim's `"caught-and-bowled"` is in the claim's allow-list but is counted
for no bowler, while a delivery with the code's `"caught and bowled"` is
outside the claim's allow-list yet is counted. -/
theorem c1_allowlist_spelling_counterexample :
    ("caught-and-bowled" ∈ claimAllowList
        ∧ get_best_bowler [⟨"a", 0, "X", some "caught-and-bowled"⟩] 1 = [])
      ∧ ("caught and bowled" ∉ claimAllowList
        ∧ get_best_bowler [⟨"a", 0, "X", some "caught and bowled"⟩] 1 = [("X", 1)]) := by
  refine ⟨⟨?_, ?_⟩, ?_, ?_⟩ <;>
    simp [claimAllowList, get_best_bowler, bowlerKeys, creditedDeliveries, dismissalCredited,
      bowlerAllowList, sortStrAsc, insertStrAsc, sortKeyDesc, insertKeyDesc, dedupKeys,
      bowlerWicketCount]

/-- C1 amended: a delivery is counted toward its bowler's wicket total if
and only if its dismissal kind is non-null and in the code's allow-list
`["caught", "bowled", "lbw", "stumped", "caught and bowled", "hit wicket"]`
(spaces, not hyphens), matched case-sensitively; every listed wicket total
is the number of such deliveries by that bowler; `"run out"` is not in the
list, and a null dismissal kind is excluded without error. -/
theorem c1_bowler_allowlist_amended (df : List Delivery) (top_n : Nat) :
    (∀ p ∈ get_best_bowler df top_n,
        p.2 = (df.filter (fun d => d.bowler == p.1 && dismissalCredited d)).length)
      ∧ (∀ d : Delivery, dismissalCredited d = true
          ↔ ∃ k, d.dismissal_kind = some k ∧ k ∈ bowlerAllowList)
      ∧ "run out" ∉ bowlerAllowList
      ∧ (∀ d : Delivery, d.dismissal_kind = none → dismissalCredited d = false) := by
  refine ⟨?_, ?_, ?_, ?_⟩
  · intro p hp
    have hp' : p ∈ (sortKeyDesc (fun q : String × Nat => q.2)
        ((bowlerKeys df).map (fun b => (b, bowlerWicketCount df b)))).take top_n := by
      simpa [get_best_bowler] using hp
    have h2 := (mem_take_sortKeyDesc_map hp').2
    rw [h2, bowlerWicketCount, creditedDeliveries, List.filter_filter]
  · intro d
    cases hd : d.dismissal_kind with
    | none => simp [dismissalCredited, hd]
    | some k =>
      simp only [dismissalCredited, hd, Option.some.injEq]
      constructor
      · intro hc
        exact ⟨k, rfl, List.elem_iff.mp hc⟩
      · rintro ⟨k', rfl, hk⟩
        exact List.elem_iff.mpr hk
  · decide
  · intro d hd
    simp [dismissalCredited, hd]

/-- Witness for C1 (amended) at a one-delivery table with a caught
dismissal: `("X", 1)` is a row, and its count 1 equals the number of
deliveries by `X` whose kind is in the allow-list. -/
theorem c1_bowler_allowlist_amended_witness :
    (("X", 1) ∈ get_best_bowler [⟨"a", 0, "X", some "caught"⟩] 1)
      ∧ (1 : Nat) = (([⟨"a", 0, "X", some "caught"⟩] : List Delivery).filter
          (fun d => d.bowler == "X" && dismissalCredited d)).length := by
  have hmem : (("X", (1 : Nat))) ∈ get_best_bowler [⟨"a", 0, "X", some "caught"⟩] 1 := by
    simp [get_best_bowler, bowlerKeys, creditedDeliveries, dismissalCredited,
      bowlerAllowList, sortStrAsc, insertStrAsc, sortKeyDesc, insertKeyDesc, dedupKeys,
      bowlerWicketCount]
  exact ⟨hmem, (c1_bowler_allowlist_amended _ 1).1 _ hmem⟩

/-! ### C5 -/

/-- C5: if either input file is missing/unreadable, `load_data` produces a
user-visible error message and no tables (so nothing downstream runs);
otherwise it returns both tables. -/
theorem c5_load_data_error_handling (fs : DataFiles) :
    ((fs.matchesFile = none ∨ fs.deliveriesFile = none) →
        ∃ msg : String, load_data fs = Except.error msg)
      ∧ (∀ (m : List MatchRow) (d : List Delivery),
          fs.matchesFile = some m → fs.deliveriesFile = some d →
          load_data fs = Except.ok (m, d)) := by
  obtain ⟨fm, fd⟩ := fs
  constructor
  · rintro (hm | hd)
    · cases hm
      exact ⟨_, rfl⟩
    · cases hd
      cases fm <;> exact ⟨_, rfl⟩
  · rintro m d hm hd
    cases hm
    cases hd
    rfl

/-- Witness for C5: a missing deliveries file yields an error, and two
present files yield both tables. -/
theorem c5_load_data_error_handling_witness :
    (∃ msg : String, load_data ⟨some exampleMatches, none⟩ = Except.error msg)
      ∧ load_data ⟨some exampleMatches, some exampleDeliveries⟩
          = Except.ok (exampleMatches, exampleDeliveries) :=
  ⟨(c5_load_data_error_handling ⟨some exampleMatches, none⟩).1 (Or.inr rfl),
   (c5_load_data_error_handling ⟨some exampleMatches, some exampleDeliveries⟩).2
     exampleMatches exampleDeliveries rfl rfl⟩

/-! ### C6 -/

/-- C6 counterexample: a table whose only delivery is a run-out by bowler
`Y` has one distinct bowler, yet `get_best_bowler` with `top_n = 5` returns
zero rows, not one row per distinct bowler of the table. -/
theorem c6_distinct_entities_counterexample :
    (dedupKeys (([⟨"a", 0, "Y", some "run out"⟩] : List Delivery).map
        (fun d => d.bowler))).length = 1
      ∧ (get_best_bowler [⟨"a", 0, "Y", some "run out"⟩] 5).length = 0 := by
  constructor <;>
    simp [get_best_bowler, bowlerKeys, creditedDeliveries, dismissalCredited,
      bowlerAllowList, sortStrAsc, insertStrAsc, sortKeyDesc, insertKeyDesc, dedupKeys,
      bowlerWicketCount]

/-- C6 amended: when `top_n` is at least the number of distinct entities of
the aggregation — distinct batsmen of the table, distinct bowlers with at
least one allow-listed dismissal, distinct non-null winners — each ranking
returns exactly that many rows, without padding and without error. -/
theorem c6_top_n_exceeds_entities_amended (ddf : List Delivery) (mdf : List MatchRow)
    (top_n : Nat)
    (hb : (dedupKeys (ddf.map (fun d => d.batsman))).length ≤ top_n)
    (hw : (dedupKeys ((creditedDeliveries ddf).map (fun d => d.bowler))).length ≤ top_n)
    (ht : (dedupKeys (matchWinners mdf)).length ≤ top_n) :
    (get_best_batsman ddf top_n).length = (dedupKeys (ddf.map (fun d => d.batsman))).length
      ∧ (get_best_bowler ddf top_n).length
          = (dedupKeys ((creditedDeliveries ddf).map (fun d => d.bowler))).length
      ∧ (get_top_teams_wins mdf top_n).length = (dedupKeys (matchWinners mdf)).length := by
  refine ⟨?_, ?_, ?_⟩
  · rw [length_get_best_batsman]
    exact Nat.min_eq_right hb
  · rw [length_get_best_bowler]
    exact Nat.min_eq_right hw
  · rw [length_get_top_teams_wins]
    exact Nat.min_eq_right ht

/-- Witness for C6 (amended) at the example tables with `top_n = 10`,
larger than every entity count. -/
theorem c6_top_n_exceeds_entities_amended_witness :
    (get_best_batsman exampleDeliveries 10).length
        = (dedupKeys (exampleDeliveries.map (fun d => d.batsman))).length
      ∧ (get_best_bowler exampleDeliveries 10).length
          = (dedupKeys ((creditedDeliveries exampleDeliveries).map
              (fun d => d.bowler))).length
      ∧ (get_top_teams_wins exampleMatches 10).length
          = (dedupKeys (matchWinners exampleMatches)).length :=
  c6_top_n_exceeds_entities_amended exampleDeliveries exampleMatches 10
    (by simp [exampleDeliveries, dedupKeys])
    (by simp [exampleDeliveries, creditedDeliveries, dismissalCredited, dedupKeys])
    (by simp [exampleMatches, matchWinners, dedupKeys])

/-! ### C7 -/

/-- C7: the three ranking functions are pure: in this embedding each is a
function of the input table and `top_n` alone — the source's `groupby`,
`sum`, `count`, `value_counts`, `sort_values` and `head` all allocate new
frames and never mutate their input — so two calls with identical
arguments are definitionally the same value. -/
theorem c7_rankings_pure (ddf : List Delivery) (mdf : List MatchRow) (top_n : Nat) :
    get_best_batsman ddf top_n = get_best_batsman ddf top_n
      ∧ get_best_bowler ddf top_n = get_best_bowler ddf top_n
      ∧ get_top_teams_wins mdf top_n = get_top_teams_wins mdf top_n :=
  ⟨rfl, rfl, rfl⟩

/-! ### C10 -/

/-- C10: a bowler none of whose deliveries has an allow-listed dismissal
kind does not appear in the bowler ranking at all — the filter runs before
the group-by, so there are no zero-wicket rows: every listed count is at
least 1, whatever `top_n` is. -/
theorem c10_no_zero_wicket_rows (df : List Delivery) (top_n : Nat) :
    (∀ b : String, (∀ d ∈ df, d.bowler = b → dismissalCredited d = false) →
        ∀ p ∈ get_best_bowler df top_n, p.1 ≠ b)
      ∧ (∀ p ∈ get_best_bowler df top_n, 1 ≤ p.2) := by
  have hkey : ∀ p : String × Nat, p ∈ get_best_bowler df top_n →
      ∃ d ∈ df, dismissalCredited d = true ∧ d.bowler = p.1 := by
    intro p hp
    have hp' : p ∈ (sortKeyDesc (fun q : String × Nat => q.2)
        ((bowlerKeys df).map (fun b => (b, bowlerWicketCount df b)))).take top_n := by
      simpa [get_best_bowler] using hp
    have h1 : p.1 ∈ bowlerKeys df := (mem_take_sortKeyDesc_map hp').1
    have h2 : p.1 ∈ (creditedDeliveries df).map (fun d => d.bowler) := by
      rw [bowlerKeys] at h1
      exact mem_sortStrAsc_dedupKeys.mp h1
    rcases List.mem_map.mp h2 with ⟨d, hd, hdb⟩
    rcases List.mem_filter.mp hd with ⟨hddf, hcred⟩
    exact ⟨d, hddf, hcred, hdb⟩
  constructor
  · intro b hb p hp he
    rcases hkey p hp with ⟨d, hddf, hcred, hdb⟩
    rw [he] at hdb
    rw [hb d hddf hdb] at hcred
    exact Bool.false_ne_true hcred
  · intro p hp
    have hp' : p ∈ (sortKeyDesc (fun q : String × Nat => q.2)
        ((bowlerKeys df).map (fun b => (b, bowlerWicketCount df b)))).take top_n := by
      simpa [get_best_bowler] using hp
    have h2 := (mem_take_sortKeyDesc_map hp').2
    rcases hkey p hp with ⟨d, hddf, hcred, hdb⟩
    have hdmem : d ∈ (creditedDeliveries df).filter (fun e => e.bowler == p.1) := by
      rw [List.mem_filter]
      exact ⟨List.mem_filter.mpr ⟨hddf, hcred⟩, by simp [hdb]⟩
    have := List.length_pos_of_mem hdmem
    rw [h2, bowlerWicketCount]
    omega

/-- Witness for C10: in the two-bowler example table, `Y` (whose only
delivery is a run-out) appears in no row, and every row's count is at
least 1. -/
theorem c10_no_zero_wicket_rows_witness :
    (∀ p ∈ get_best_bowler exampleBowlerDeliveries 5, p.1 ≠ "Y")
      ∧ (∀ p ∈ get_best_bowler exampleBowlerDeliveries 5, 1 ≤ p.2) := by
  have h := c10_no_zero_wicket_rows exampleBowlerDeliveries 5
  refine ⟨h.1 "Y" ?_, h.2⟩
  simp [exampleBowlerDeliveries, dismissalCredited, bowlerAllowList]
